import Mathlib

/-! The token counter of velodrome.

A shallow embedding of `velodrome/token-counter/token-counter.go`: the
estimation loop `TokenHandler.Process`, the on-demand sample
`TokenHandler.ProcessNow` and the Prometheus collector `Collector.Collect`.

The two capabilities the program talks to (the GitHub client `gClient` and the
InfluxDB client `influxdb`) and the wall clock are not part of the program.
Their answers are inputs of the model; the calls the program makes on them
(`time.Sleep`, `Push`, `glog.Error`, sending on the metric channel) are the
outputs of the model, recorded in the order in which the code makes them.
-/

namespace TokenCounter

/-! ## Go primitives -/

/-- An instant (`time.Time`), in nanoseconds since the Unix epoch. -/
abbrev Time := Int

/-- A `time.Duration`: a signed 64-bit number of nanoseconds. -/
abbrev Duration := Int

/-- The constant `time.Minute`, in nanoseconds. -/
def Minute : Duration := 60 * 1000000000

/-- The smallest `time.Duration`. -/
def minDuration : Duration := -(2 ^ 63)

/-- The largest `time.Duration`. -/
def maxDuration : Duration := 2 ^ 63 - 1

/-- The method `time.Time.Sub`: the duration `t - u`, saturated at the smallest
and the largest duration when the difference does not fit 64 bits. -/
def Time.Sub (t u : Time) : Duration :=
  if t - u < minDuration then minDuration
  else if maxDuration < t - u then maxDuration
  else t - u

/-- The method `time.Time.Equal`: the two values denote the same instant. -/
def Time.Equal (t u : Time) : Bool := decide (t = u)

/-- The time `time.Sleep d` pauses the caller: a negative or zero duration
makes it return immediately. -/
def slept (d : Duration) : Duration := max d 0

/-- A Go `int` (64 bits, two's complement) from an unbounded integer. -/
def wrapInt (x : Int) : Int := (x + 2 ^ 63) % 2 ^ 64 - 2 ^ 63

/-- Subtraction of two Go `int`s. -/
def intSub (a b : Int) : Int := wrapInt (a - b)

/-! ## Data model -/

/-- The type `github.Rate`: the quota status of one credential. -/
structure Rate where
  Limit : Int
  Remaining : Int
  Reset : Time
deriving DecidableEq, Repr

/-- The type `github.RateLimits`, of which the program reads the field `Core`
only. -/
structure RateLimits where
  Core : Rate
deriving DecidableEq, Repr

/-- The outcome of one call `t.gClient.RateLimits(ctx)`: an error (its text) or
the rate limits, whose `Core` is taken to be present. -/
abbrev Reply := Except String RateLimits

/-- The type `TokenHandler`. The fields `gClient` and `influxdb` are the two
capabilities whose answers are inputs of the model. -/
structure TokenHandler where
  login : String
deriving DecidableEq, Repr

/-- The arguments of one call `t.influxdb.Push(name, tags, fields, date)`. -/
structure Measurement where
  name : String
  tags : List (String × String)
  fields : List (String × Int)
  timestamp : Time
deriving DecidableEq, Repr

/-- What the program does to the outside, in program order. -/
inductive Event where
  | sleep (d : Duration)
  | push (m : Measurement)
  | logError (msg : String)
  | fatal (msg : String)
deriving DecidableEq, Repr

/-- The method `TokenHandler.getCoreRate`, on the client's reply. -/
def TokenHandler.getCoreRate (_t : TokenHandler) (reply : Reply) : Except String Rate :=
  match reply with
  | .error err => .error err
  | .ok limits => .ok limits.Core

/-- The method `TokenHandler.ProcessNow`, on the client's reply. -/
def TokenHandler.ProcessNow (t : TokenHandler) (reply : Reply) : Except String Rate :=
  match t.getCoreRate reply with
  | .error err => .error ("failed to get CoreRate: " ++ err)
  | .ok newRate => .ok newRate

/-! ## The estimation loop -/

/-- What the environment answers while the loop makes one fetch: `fetch` is the
reply to the call of `getCoreRate`; `now` is the value of `time.Now()` read at
the top of the iteration (line 172), used by a fetch of line 174 only;
`pushErr` is the error `Push` returns (`none` for a nil error), used only when
the fetch leads to a push. -/
structure Input where
  now : Time
  fetch : Reply
  pushErr : Option String

/-- The place of the loop at which the next fetch is made, with the variable
`lastRate`: `armed` is the top of the outer `for` (line 171), `reacquire` the
top of the inner `for` (line 191). -/
inductive Phase where
  | armed (lastRate : Rate)
  | reacquire (lastRate : Rate)
deriving DecidableEq, Repr

/-- The expression `lastRate.Reset.Time.Sub(time.Now()) / 2` of line 172; Go
divides integers truncating toward zero. -/
def halfPeriod (lastRate : Rate) (now : Time) : Duration :=
  (Time.Sub lastRate.Reset now).tdiv 2

/-- The condition of line 180. -/
def resetDetected (lastRate newRate : Rate) : Bool :=
  !(Time.Equal newRate.Reset lastRate.Reset) || decide (newRate.Remaining > lastRate.Remaining)

/-- The arguments of the `Push` of lines 181 to 186. -/
def TokenHandler.measurement (t : TokenHandler) (lastRate : Rate) : Measurement :=
  { name := "github_token_count"
    tags := [("login", t.login)]
    fields := [("value", intSub lastRate.Limit lastRate.Remaining)]
    timestamp := lastRate.Reset }

/-- The log of line 187, made when `Push` returned an error. -/
def pushLog (pushErr : Option String) : List Event :=
  match pushErr with
  | some err => [.logError ("Failed to push count:" ++ err)]
  | none => []

/-- The code of `Process` from one call of `getCoreRate` to the next: from the
top of the outer loop through the fetch of line 174 to the top of the outer
loop (no reset, or a failed fetch) or of the inner loop (reset detected), and
from the top of the inner loop through the fetch of line 192 to the top of
either loop. -/
def TokenHandler.step (t : TokenHandler) : Phase → Input → List Event × Phase
  | .armed lastRate, inp =>
    match t.getCoreRate inp.fetch with
    | .error err =>
      ([.sleep (halfPeriod lastRate inp.now), .logError ("Failed to get CoreRate: " ++ err)],
        .armed lastRate)
    | .ok newRate =>
      if resetDetected lastRate newRate then
        (.sleep (halfPeriod lastRate inp.now) :: .push (t.measurement lastRate)
            :: (pushLog inp.pushErr ++ [.sleep (30 * Minute)]),
          .reacquire lastRate)
      else
        ([.sleep (halfPeriod lastRate inp.now)], .armed newRate)
  | .reacquire lastRate, inp =>
    match t.getCoreRate inp.fetch with
    | .ok newRate => ([], .armed newRate)
    | .error err => ([.logError ("Failed to get CoreRate: " ++ err), .sleep Minute],
        .reacquire lastRate)

/-- The loop of `Process` over the answers to its successive fetches: the
events made up to the handling of the last answered fetch, and the place
reached there. The loop itself never ends; a longer script continues the
run. -/
def TokenHandler.run (t : TokenHandler) : Phase → List Input → List Event × Phase
  | s, [] => ([], s)
  | s, inp :: rest =>
    ((t.step s inp).1 ++ (t.run (t.step s inp).2 rest).1, (t.run (t.step s inp).2 rest).2)

/-- The method `TokenHandler.Process`: the first fetch (line 166), fatal when it
fails, then the loop. The phase is `none` once the process has exited. -/
def TokenHandler.Process (t : TokenHandler) (first : Reply) (script : List Input) :
    List Event × Option Phase :=
  match t.getCoreRate first with
  | .error err => ([.fatal (t.login ++ ": Couldn't get rate limits: " ++ err)], none)
  | .ok lastRate => ((t.run (.armed lastRate) script).1, some (t.run (.armed lastRate) script).2)

/-- The measurements pushed, in order. -/
def pushes : List Event → List Measurement
  | [] => []
  | .push m :: rest => m :: pushes rest
  | _ :: rest => pushes rest

/-- The durations passed to `time.Sleep`, in order. -/
def sleeps : List Event → List Duration
  | [] => []
  | .sleep d :: rest => d :: sleeps rest
  | _ :: rest => sleeps rest

/-! ## The collector -/

/-- A constant metric as built by `prometheus.MustNewConstMetric`. The value
is the Go `int` that the code converts with `float64`. -/
structure Metric where
  fqName : String
  help : String
  variableLabels : List String
  isGauge : Bool
  value : Int
  labelValues : List String
deriving DecidableEq, Repr

/-- The descriptor built by `prometheus.NewDesc`. -/
structure Desc where
  fqName : String
  help : String
  variableLabels : List String
deriving DecidableEq, Repr

/-- The type `Collector`. -/
structure Collector where
  tokenCounter : Desc
  tokens : List TokenHandler
deriving DecidableEq, Repr

/-- The function `NewCollector`. -/
def NewCollector (tokens : List TokenHandler) : Collector :=
  { tokens := tokens
    tokenCounter :=
      { fqName := "github_token_count"
        help := "Number of counted API calls against the github API within a reset window"
        variableLabels := ["login"] } }

/-- The metric of line 75. -/
def Collector.gauge (c : Collector) (handler : TokenHandler) (rate : Rate) : Metric :=
  { fqName := c.tokenCounter.fqName
    help := c.tokenCounter.help
    variableLabels := c.tokenCounter.variableLabels
    isGauge := true
    value := intSub rate.Limit rate.Remaining
    labelValues := [handler.login] }

/-- One `logrus` error entry: the message and the fields `error` and `login`. -/
structure LogEntry where
  message : String
  error : String
  login : String
deriving DecidableEq, Repr

/-- What one call of `Collect` does: the metrics sent on the channel, in order,
and the errors logged. The method returns nothing to its caller. -/
structure Scrape where
  sent : List Metric
  logged : List LogEntry
deriving DecidableEq, Repr

/-- The loop of `Collector.Collect` over the handlers that remain, `api i` being
the reply the GitHub client of the handler at position `i` gives in this
scrape. -/
def Collector.collectFrom (c : Collector) (api : Nat → Reply) : Nat → List TokenHandler → Scrape
  | _, [] => { sent := [], logged := [] }
  | i, handler :: rest =>
    match handler.ProcessNow (api i) with
    | .error err =>
      { sent := []
        logged := [{ message := "Failed to fetch rate limits for login '" ++ handler.login ++ "'"
                     error := err
                     login := handler.login }] }
    | .ok rate =>
      { sent := c.gauge handler rate :: (c.collectFrom api (i + 1) rest).sent
        logged := (c.collectFrom api (i + 1) rest).logged }

/-- The method `Collector.Collect`. -/
def Collector.Collect (c : Collector) (api : Nat → Reply) : Scrape :=
  c.collectFrom api 0 c.tokens

/-! ## Vocabulary of the statements -/

/-- The rates of the successful replies among the given ones, in order. -/
def successes : List Reply → List Rate
  | [] => []
  | .ok limits :: rest => limits.Core :: successes rest
  | .error _ :: rest => successes rest

/-- The number of pairs of consecutive rates whose reset times differ. -/
def resetChanges : List Rate → Nat
  | a :: b :: rest => (if a.Reset = b.Reset then 0 else 1) + resetChanges (b :: rest)
  | _ => 0

/-- The rate of the most recent successful fetch: the baseline fetch of line
166 when no fetch of the script succeeded. -/
def lastSuccess (baseline : Rate) : List Input → Rate
  | [] => baseline
  | inp :: rest =>
    match inp.fetch with
    | .ok limits => lastSuccess limits.Core rest
    | .error _ => lastSuccess baseline rest

/-! ## Shared lemmas -/

theorem pushes_append (xs ys : List Event) : pushes (xs ++ ys) = pushes xs ++ pushes ys := by
  induction xs with
  | nil => rfl
  | cons e rest ih => cases e <;> simp [pushes, ih]

theorem sleeps_append (xs ys : List Event) : sleeps (xs ++ ys) = sleeps xs ++ sleeps ys := by
  induction xs with
  | nil => rfl
  | cons e rest ih => cases e <;> simp [sleeps, ih]

theorem pushes_pushLog (pushErr : Option String) : pushes (pushLog pushErr) = [] := by
  cases pushErr <;> rfl

theorem sleeps_pushLog (pushErr : Option String) : sleeps (pushLog pushErr) = [] := by
  cases pushErr <;> rfl

theorem run_append (t : TokenHandler) (s : Phase) (xs ys : List Input) :
    t.run s (xs ++ ys)
      = ((t.run s xs).1 ++ (t.run (t.run s xs).2 ys).1, (t.run (t.run s xs).2 ys).2) := by
  induction xs generalizing s with
  | nil => simp [TokenHandler.run]
  | cons inp rest ih => simp [TokenHandler.run, ih, List.append_assoc]

theorem run_singleton (t : TokenHandler) (s : Phase) (inp : Input) :
    t.run s [inp] = t.step s inp := by
  simp [TokenHandler.run]

theorem wrapInt_of_fits (x : Int) (lo : -(2 ^ 63) ≤ x) (hi : x < 2 ^ 63) : wrapInt x = x := by
  unfold wrapInt
  omega

theorem intSub_of_fits (a b : Int) (lo : -(2 ^ 63) ≤ a - b) (hi : a - b < 2 ^ 63) :
    intSub a b = a - b :=
  wrapInt_of_fits (a - b) lo hi

theorem resetDetected_iff (lastRate newRate : Rate) :
    resetDetected lastRate newRate = true
      ↔ newRate.Reset ≠ lastRate.Reset ∨ newRate.Remaining > lastRate.Remaining := by
  simp [resetDetected, Time.Equal]

theorem resetDetected_false_iff (lastRate newRate : Rate) :
    resetDetected lastRate newRate = false
      ↔ newRate.Reset = lastRate.Reset ∧ newRate.Remaining ≤ lastRate.Remaining := by
  simp [resetDetected, Time.Equal]

theorem step_armed_ok (t : TokenHandler) (lastRate newRate : Rate) (now : Time)
    (pushErr : Option String) :
    t.step (.armed lastRate) ⟨now, .ok ⟨newRate⟩, pushErr⟩
      = if resetDetected lastRate newRate then
          (.sleep (halfPeriod lastRate now) :: .push (t.measurement lastRate)
              :: (pushLog pushErr ++ [.sleep (30 * Minute)]),
            .reacquire lastRate)
        else ([.sleep (halfPeriod lastRate now)], .armed newRate) := by
  simp [TokenHandler.step, TokenHandler.getCoreRate]

theorem process_ok (t : TokenHandler) (baseline : Rate) (script : List Input) :
    t.Process (.ok ⟨baseline⟩) script
      = ((t.run (.armed baseline) script).1, some (t.run (.armed baseline) script).2) := by
  simp [TokenHandler.Process, TokenHandler.getCoreRate]

theorem run_quiet_of_remaining_le (t : TokenHandler) (script : List Input) (rates : List Rate)
    (baseline : Rate)
    (hfetch : script.map (fun inp => inp.fetch) = rates.map (fun r => .ok ⟨r⟩))
    (hchain : List.Chain (fun a b : Rate => a.Reset = b.Reset ∧ b.Remaining ≤ a.Remaining)
      baseline rates) :
    pushes (t.run (.armed baseline) script).1 = [] := by
  induction script generalizing rates baseline with
  | nil => rfl
  | cons inp rest ih =>
    cases rates with
    | nil => simp at hfetch
    | cons r rs =>
      simp only [List.map_cons, List.cons.injEq] at hfetch
      obtain ⟨hr, hrest⟩ := hfetch
      rw [List.chain_cons] at hchain
      obtain ⟨hrel, hchain⟩ := hchain
      have hnot : resetDetected baseline r = false :=
        (resetDetected_false_iff baseline r).mpr ⟨hrel.1.symm, hrel.2⟩
      have hstep : t.step (.armed baseline) inp
          = ([.sleep (halfPeriod baseline inp.now)], .armed r) := by
        obtain ⟨now, fetch, pushErr⟩ := inp
        simp only at hr
        subst hr
        rw [step_armed_ok, hnot]
        rfl
      simp [TokenHandler.run, hstep, pushes, ih rs r hrest hchain]

theorem step_phase_of_error (t : TokenHandler) (s : Phase) (inp : Input) (err : String)
    (h : inp.fetch = .error err) : (t.step s inp).2 = s := by
  cases s <;> simp [TokenHandler.step, TokenHandler.getCoreRate, h]

theorem step_armed_of_ok (t : TokenHandler) (s : Phase) (inp : Input) (limits : RateLimits)
    (h : inp.fetch = .ok limits) (l : Rate) (hl : (t.step s inp).2 = .armed l) :
    l = limits.Core := by
  cases s with
  | armed lastRate =>
    simp only [TokenHandler.step, TokenHandler.getCoreRate, h] at hl
    split at hl
    · simp at hl
    · simpa using hl.symm
  | reacquire lastRate =>
    simp only [TokenHandler.step, TokenHandler.getCoreRate, h] at hl
    simpa using hl.symm

theorem run_armed_lastSuccess (t : TokenHandler) (script : List Input) (s : Phase) (r : Rate)
    (hs : ∀ l, s = .armed l → l = r) (lastRate : Rate)
    (h : (t.run s script).2 = .armed lastRate) : lastRate = lastSuccess r script := by
  induction script generalizing s r with
  | nil => exact hs lastRate h
  | cons inp rest ih =>
    simp only [TokenHandler.run] at h
    cases hf : inp.fetch with
    | error err =>
      rw [step_phase_of_error t s inp err hf] at h
      simpa [lastSuccess, hf] using ih s r hs h
    | ok limits =>
      simpa [lastSuccess, hf] using
        ih (t.step s inp).2 limits.Core (step_armed_of_ok t s inp limits hf) h

theorem run_reacquire_failures (t : TokenHandler) (lastRate : Rate) (fails : List Input)
    (errs : List String) (rest : List Input)
    (hfails : fails.map (fun f => f.fetch) = errs.map (fun e => .error e)) :
    t.run (.reacquire lastRate) (fails ++ rest)
      = (errs.flatMap (fun e => [.logError ("Failed to get CoreRate: " ++ e), .sleep Minute])
          ++ (t.run (.reacquire lastRate) rest).1, (t.run (.reacquire lastRate) rest).2) := by
  induction fails generalizing errs with
  | nil =>
    cases errs with
    | nil => simp
    | cons e es => simp at hfails
  | cons f fs ih =>
    cases errs with
    | nil => simp at hfails
    | cons e es =>
      simp only [List.map_cons, List.cons.injEq] at hfails
      obtain ⟨hf, hrest⟩ := hfails
      have hstep : t.step (.reacquire lastRate) f
          = ([.logError ("Failed to get CoreRate: " ++ e), .sleep Minute],
              .reacquire lastRate) := by
        simp [TokenHandler.step, TokenHandler.getCoreRate, hf]
      simp [TokenHandler.run, hstep, ih es hrest]

theorem step_same_now_fetch (t : TokenHandler) (s : Phase) (x y : Input)
    (hnow : x.now = y.now) (hfetch : x.fetch = y.fetch) :
    (t.step s x).2 = (t.step s y).2 ∧ pushes (t.step s x).1 = pushes (t.step s y).1
      ∧ sleeps (t.step s x).1 = sleeps (t.step s y).1 := by
  obtain ⟨now, fetch, px⟩ := x
  obtain ⟨now', fetch', py⟩ := y
  simp only at hnow hfetch
  subst hnow hfetch
  cases s with
  | armed lastRate =>
    cases fetch with
    | error err => simp [TokenHandler.step, TokenHandler.getCoreRate]
    | ok limits =>
      cases hd : resetDetected lastRate limits.Core <;>
        simp [TokenHandler.step, TokenHandler.getCoreRate, hd, pushes, sleeps, pushes_append,
          sleeps_append, pushes_pushLog, sleeps_pushLog]
  | reacquire lastRate =>
    cases fetch <;> simp [TokenHandler.step, TokenHandler.getCoreRate]

theorem run_same_now_fetch (t : TokenHandler) (s : Phase) (xs ys : List Input)
    (h : xs.map (fun i => (i.now, i.fetch)) = ys.map (fun i => (i.now, i.fetch))) :
    (t.run s xs).2 = (t.run s ys).2 ∧ pushes (t.run s xs).1 = pushes (t.run s ys).1
      ∧ sleeps (t.run s xs).1 = sleeps (t.run s ys).1 := by
  induction xs generalizing s ys with
  | nil =>
    cases ys with
    | nil => simp
    | cons y ys => simp at h
  | cons x xs ih =>
    cases ys with
    | nil => simp at h
    | cons y ys =>
      simp only [List.map_cons, List.cons.injEq, Prod.mk.injEq] at h
      obtain ⟨⟨hnow, hfetch⟩, hrest⟩ := h
      obtain ⟨h1, h2, h3⟩ := step_same_now_fetch t s x y hnow hfetch
      obtain ⟨i1, i2, i3⟩ := ih (t.step s x).2 ys hrest
      simp only [TokenHandler.run, pushes_append, sleeps_append]
      rw [← h1, h2, h3, i1, i2, i3]
      exact ⟨rfl, rfl, rfl⟩

theorem tdiv_two (a : Int) : a.tdiv 2 = if 0 ≤ a then a / 2 else -((-a) / 2) := by
  by_cases h : 0 ≤ a
  · rw [if_pos h]
    exact Int.tdiv_eq_ediv h (by decide)
  · rw [if_neg h]
    have h' : (0 : Int) ≤ -a := by omega
    have e := Int.tdiv_eq_ediv h' (show (0 : Int) ≤ 2 by decide)
    rw [Int.neg_tdiv] at e
    omega

theorem halfPeriod_antitone (lastRate : Rate) (now later : Time) (h : now ≤ later) :
    halfPeriod lastRate later ≤ halfPeriod lastRate now := by
  simp only [halfPeriod, Time.Sub, minDuration, maxDuration, tdiv_two]
  dsimp only [Time, Duration] at *
  split_ifs <;> omega

theorem halfPeriod_nonneg_iff (lastRate : Rate) (now : Time) :
    0 ≤ halfPeriod lastRate now ↔ now ≤ lastRate.Reset + 1 := by
  simp only [halfPeriod, Time.Sub, minDuration, maxDuration, tdiv_two]
  dsimp only [Time, Duration] at *
  split_ifs <;> omega

theorem halfPeriod_of_fits (lastRate : Rate) (now : Time)
    (lo : minDuration ≤ lastRate.Reset - now) (hi : lastRate.Reset - now ≤ maxDuration) :
    halfPeriod lastRate now = (lastRate.Reset - now).tdiv 2 := by
  simp only [halfPeriod, Time.Sub]
  rw [if_neg (not_lt.mpr lo), if_neg (not_lt.mpr hi)]

theorem step_armed_first_sleep (t : TokenHandler) (lastRate : Rate) (inp : Input) :
    (sleeps (t.step (.armed lastRate) inp).1).head? = some (halfPeriod lastRate inp.now) := by
  obtain ⟨now, fetch, pushErr⟩ := inp
  cases fetch with
  | error err => simp [TokenHandler.step, TokenHandler.getCoreRate, sleeps]
  | ok limits =>
    cases hd : resetDetected lastRate limits.Core <;>
      simp [TokenHandler.step, TokenHandler.getCoreRate, hd, sleeps]

theorem collectFrom_all_ok (c : Collector) (api : Nat → Reply) (rates : Nat → Rate)
    (hs : List TokenHandler) (i : Nat)
    (hok : ∀ j, j < hs.length → api (i + j) = .ok ⟨rates (i + j)⟩) :
    c.collectFrom api i hs
      = { sent := (hs.enumFrom i).map (fun p => c.gauge p.2 (rates p.1)), logged := [] } := by
  induction hs generalizing i with
  | nil => rfl
  | cons h rest ih =>
    have h0 : api i = .ok ⟨rates i⟩ := by simpa using hok 0 (by simp)
    have hrest : ∀ j, j < rest.length → api (i + 1 + j) = .ok ⟨rates (i + 1 + j)⟩ := by
      intro j hj
      have := hok (j + 1) (by simpa using hj)
      simpa [Nat.add_assoc, Nat.add_comm 1 j] using this
    simp [Collector.collectFrom, TokenHandler.ProcessNow, TokenHandler.getCoreRate, h0,
      ih (i + 1) hrest, List.enumFrom]

theorem collectFrom_first_failure (c : Collector) (api : Nat → Reply) (rates : Nat → Rate)
    (before : List TokenHandler) (handler : TokenHandler) (after : List TokenHandler)
    (err : String) (i : Nat)
    (hok : ∀ j, j < before.length → api (i + j) = .ok ⟨rates (i + j)⟩)
    (hfail : api (i + before.length) = .error err) :
    c.collectFrom api i (before ++ handler :: after)
      = { sent := (before.enumFrom i).map (fun p => c.gauge p.2 (rates p.1))
          logged := [{ message := "Failed to fetch rate limits for login '" ++ handler.login ++ "'"
                       error := "failed to get CoreRate: " ++ err
                       login := handler.login }] } := by
  induction before generalizing i with
  | nil =>
    have h0 : api i = .error err := by simpa using hfail
    simp [Collector.collectFrom, TokenHandler.ProcessNow, TokenHandler.getCoreRate, h0]
  | cons h rest ih =>
    have h0 : api i = .ok ⟨rates i⟩ := by simpa using hok 0 (by simp)
    have hrest : ∀ j, j < rest.length → api (i + 1 + j) = .ok ⟨rates (i + 1 + j)⟩ := by
      intro j hj
      have := hok (j + 1) (by simpa using hj)
      simpa [Nat.add_assoc, Nat.add_comm 1 j] using this
    have hfail' : api (i + 1 + rest.length) = .error err := by
      simpa [Nat.add_assoc, Nat.add_comm 1 rest.length] using hfail
    simp [Collector.collectFrom, TokenHandler.ProcessNow, TokenHandler.getCoreRate, h0,
      ih (i + 1) hrest hfail', List.enumFrom]

theorem processNow_eq_ok (t : TokenHandler) (reply : Reply) (rate : Rate)
    (h : t.ProcessNow reply = .ok rate) : reply = .ok ⟨rate⟩ := by
  cases reply with
  | error err => simp [TokenHandler.ProcessNow, TokenHandler.getCoreRate] at h
  | ok limits =>
    simp only [TokenHandler.ProcessNow, TokenHandler.getCoreRate, Except.ok.injEq] at h
    cases limits
    simp_all

theorem processNow_eq_error (t : TokenHandler) (reply : Reply) (e : String)
    (h : t.ProcessNow reply = .error e) :
    ∃ err, reply = .error err ∧ e = "failed to get CoreRate: " ++ err := by
  cases reply with
  | error err =>
    simp only [TokenHandler.ProcessNow, TokenHandler.getCoreRate, Except.error.injEq] at h
    exact ⟨err, rfl, h.symm⟩
  | ok limits => simp [TokenHandler.ProcessNow, TokenHandler.getCoreRate] at h

/-! ## The loop, one fetch at a time -/

/-- C1: on a successful fetch at the top of the loop, when the reset time is
the baseline's and remaining has not increased the iteration pushes nothing
and the next baseline is exactly the fetched rate; otherwise the iteration
pushes. A push is made if and only if the reset time changed or remaining
increased. -/
theorem push_iff_reset_changed_or_remaining_increased (t : TokenHandler)
    (lastRate newRate : Rate) (now : Time) (pushErr : Option String) :
    ((newRate.Reset = lastRate.Reset ∧ newRate.Remaining ≤ lastRate.Remaining) →
        pushes (t.step (.armed lastRate) ⟨now, .ok ⟨newRate⟩, pushErr⟩).1 = []
          ∧ (t.step (.armed lastRate) ⟨now, .ok ⟨newRate⟩, pushErr⟩).2 = .armed newRate)
      ∧ (¬ (newRate.Reset = lastRate.Reset ∧ newRate.Remaining ≤ lastRate.Remaining) →
        pushes (t.step (.armed lastRate) ⟨now, .ok ⟨newRate⟩, pushErr⟩).1 ≠ [])
      ∧ (pushes (t.step (.armed lastRate) ⟨now, .ok ⟨newRate⟩, pushErr⟩).1 ≠ []
          ↔ newRate.Reset ≠ lastRate.Reset ∨ newRate.Remaining > lastRate.Remaining) := by
  rw [step_armed_ok]
  cases hd : resetDetected lastRate newRate
  · have h := (resetDetected_false_iff lastRate newRate).mp hd
    have h' : ¬ (newRate.Reset ≠ lastRate.Reset ∨ newRate.Remaining > lastRate.Remaining) := by
      rintro (h1 | h1)
      · exact h1 h.1
      · exact absurd h.2 (not_le.mpr h1)
    simp [pushes, h, h']
  · have h := (resetDetected_iff lastRate newRate).mp hd
    have h' : ¬ (newRate.Reset = lastRate.Reset ∧ newRate.Remaining ≤ lastRate.Remaining) := by
      rintro ⟨h1, h2⟩
      rcases h with h | h
      · exact h h1
      · exact absurd h2 (not_le.mpr h)
    simp [pushes, h, h']

/-- Both cases of C1 from the baseline (5000, 4990, 1000): the fetch
(5000, 4985, 1000) pushes nothing and becomes the baseline, the fetch
(5000, 5000, 1000), with remaining gone up, pushes. -/
theorem push_iff_reset_changed_or_remaining_increased_witness :
    (pushes ((⟨"bot"⟩ : TokenHandler).step (.armed ⟨5000, 4990, 1000⟩)
          ⟨900, .ok ⟨⟨5000, 4985, 1000⟩⟩, none⟩).1 = []
        ∧ ((⟨"bot"⟩ : TokenHandler).step (.armed ⟨5000, 4990, 1000⟩)
          ⟨900, .ok ⟨⟨5000, 4985, 1000⟩⟩, none⟩).2 = .armed ⟨5000, 4985, 1000⟩)
      ∧ pushes ((⟨"bot"⟩ : TokenHandler).step (.armed ⟨5000, 4990, 1000⟩)
          ⟨900, .ok ⟨⟨5000, 5000, 1000⟩⟩, none⟩).1 ≠ [] :=
  ⟨(push_iff_reset_changed_or_remaining_increased ⟨"bot"⟩ ⟨5000, 4990, 1000⟩
      ⟨5000, 4985, 1000⟩ 900 none).1 (by decide),
    (push_iff_reset_changed_or_remaining_increased ⟨"bot"⟩ ⟨5000, 4990, 1000⟩
      ⟨5000, 5000, 1000⟩ 900 none).2.1 (by decide)⟩

/-- C2: a fetch that shows a reset (the reset time differs from the baseline's,
or remaining is greater than the baseline's, also with an unchanged reset time)
makes exactly one push, and the push carries the previous baseline: the field
value is the baseline's limit minus its remaining, the timestamp the baseline's
reset time, the tag the handler's login. -/
theorem detected_reset_pushes_previous_baseline (t : TokenHandler)
    (lastRate newRate : Rate) (now : Time) (pushErr : Option String)
    (h : newRate.Reset ≠ lastRate.Reset ∨ newRate.Remaining > lastRate.Remaining) :
    pushes (t.step (.armed lastRate) ⟨now, .ok ⟨newRate⟩, pushErr⟩).1
        = [{ name := "github_token_count"
             tags := [("login", t.login)]
             fields := [("value", intSub lastRate.Limit lastRate.Remaining)]
             timestamp := lastRate.Reset }]
      ∧ (-(2 ^ 63) ≤ lastRate.Limit - lastRate.Remaining
          ∧ lastRate.Limit - lastRate.Remaining < 2 ^ 63 →
        intSub lastRate.Limit lastRate.Remaining = lastRate.Limit - lastRate.Remaining) := by
  refine ⟨?_, fun hfit => intSub_of_fits _ _ hfit.1 hfit.2⟩
  rw [step_armed_ok, (resetDetected_iff lastRate newRate).mpr h]
  simp [pushes, pushes_append, pushes_pushLog, TokenHandler.measurement]

/-- The scenario of C2, with T = 1000 and 3600 later for the next window: from
the baseline (5000, 4990, T) the fetch (5000, 4985, T) pushes nothing and the
fetch (5000, 5000, T + 3600) pushes once, value 15 at timestamp T. -/
theorem detected_reset_pushes_previous_baseline_witness :
    pushes ((⟨"bot"⟩ : TokenHandler).Process (.ok ⟨⟨5000, 4990, 1000⟩⟩)
        [⟨900, .ok ⟨⟨5000, 4985, 1000⟩⟩, none⟩, ⟨1001, .ok ⟨⟨5000, 5000, 4600⟩⟩, none⟩]).1
        = [⟨"github_token_count", [("login", "bot")], [("value", 15)], 1000⟩]
      ∧ pushes ((⟨"bot"⟩ : TokenHandler).step (.armed ⟨5000, 4985, 1000⟩)
          ⟨1001, .ok ⟨⟨5000, 5000, 4600⟩⟩, none⟩).1
        = [⟨"github_token_count", [("login", "bot")], [("value", intSub 5000 4985)], 1000⟩] :=
  ⟨by decide,
    (detected_reset_pushes_previous_baseline ⟨"bot"⟩ ⟨5000, 4985, 1000⟩ ⟨5000, 5000, 4600⟩ 1001
      none (Or.inl (by decide))).1⟩

/-- C6: when the fetch at the top of an iteration fails, the iteration pushes
nothing and the baseline after it is the baseline before it; the loop goes on
from the top with the answers that follow. -/
theorem failed_fetch_keeps_baseline (t : TokenHandler) (lastRate : Rate) (now : Time)
    (err : String) (pushErr : Option String) (rest : List Input) :
    t.step (.armed lastRate) ⟨now, .error err, pushErr⟩
        = ([.sleep (halfPeriod lastRate now), .logError ("Failed to get CoreRate: " ++ err)],
            .armed lastRate)
      ∧ pushes (t.step (.armed lastRate) ⟨now, .error err, pushErr⟩).1 = []
      ∧ t.run (.armed lastRate) (⟨now, .error err, pushErr⟩ :: rest)
        = (.sleep (halfPeriod lastRate now) :: .logError ("Failed to get CoreRate: " ++ err)
            :: (t.run (.armed lastRate) rest).1, (t.run (.armed lastRate) rest).2) := by
  simp [TokenHandler.run, TokenHandler.step, TokenHandler.getCoreRate, pushes]

/-! ## Runs of the loop -/

/-- C3, as the claim states it, fails: with the same reset time and a usage
(limit minus remaining) that grows from 10 to 1000, the fetch (6000, 5000, T)
after the baseline (5000, 4990, T) makes the loop push, because remaining went
up with the limit. -/
theorem usage_non_decreasing_still_pushes :
    List.Chain (fun a b : Rate => a.Reset = b.Reset
        ∧ a.Limit - a.Remaining ≤ b.Limit - b.Remaining)
      ⟨5000, 4990, 1000⟩ [⟨6000, 5000, 1000⟩]
      ∧ pushes ((⟨"bot"⟩ : TokenHandler).Process (.ok ⟨⟨5000, 4990, 1000⟩⟩)
          [⟨900, .ok ⟨⟨6000, 5000, 1000⟩⟩, none⟩]).1
        = [⟨"github_token_count", [("login", "bot")], [("value", 10)], 1000⟩] :=
  ⟨by simp, by decide⟩

/-- C3, amended: over a sequence of successful fetches (the baseline fetch
first) with the same reset time and the same limit in all of them and a usage
(limit minus remaining) that never decreases from one fetch to the next, the
loop never pushes. -/
theorem constant_limit_non_decreasing_usage_never_pushes (t : TokenHandler) (baseline : Rate)
    (script : List Input) (rates : List Rate)
    (hfetch : script.map (fun inp => inp.fetch) = rates.map (fun r => .ok ⟨r⟩))
    (hchain : List.Chain (fun a b : Rate => a.Reset = b.Reset ∧ a.Limit = b.Limit
        ∧ a.Limit - a.Remaining ≤ b.Limit - b.Remaining) baseline rates) :
    pushes (t.Process (.ok ⟨baseline⟩) script).1 = [] := by
  rw [process_ok]
  refine run_quiet_of_remaining_le t script rates baseline hfetch (hchain.imp ?_)
  rintro a b ⟨hreset, hlimit, husage⟩
  exact ⟨hreset, by omega⟩

/-- A run of three successful fetches after the baseline, the limit 5000 and
the reset time 1000 in all, remaining going 4990, 4985, 4985, 4000. -/
theorem constant_limit_non_decreasing_usage_never_pushes_witness :
    List.Chain (fun a b : Rate => a.Reset = b.Reset ∧ a.Limit = b.Limit
        ∧ a.Limit - a.Remaining ≤ b.Limit - b.Remaining)
      ⟨5000, 4990, 1000⟩ [⟨5000, 4985, 1000⟩, ⟨5000, 4985, 1000⟩, ⟨5000, 4000, 1000⟩]
      ∧ pushes ((⟨"bot"⟩ : TokenHandler).Process (.ok ⟨⟨5000, 4990, 1000⟩⟩)
          [⟨0, .ok ⟨⟨5000, 4985, 1000⟩⟩, none⟩, ⟨500, .ok ⟨⟨5000, 4985, 1000⟩⟩, some "down"⟩,
            ⟨750, .ok ⟨⟨5000, 4000, 1000⟩⟩, none⟩]).1 = [] :=
  ⟨by simp,
    constant_limit_non_decreasing_usage_never_pushes ⟨"bot"⟩ ⟨5000, 4990, 1000⟩ _
      [⟨5000, 4985, 1000⟩, ⟨5000, 4985, 1000⟩, ⟨5000, 4000, 1000⟩] rfl (by simp)⟩

/-- C4, as the claim states it, fails: after the baseline with reset time 1000,
the fetch with reset time 4600 is pushed for, and the first successful fetch
after the settle delay, with reset time 8200, is adopted without a push. The
successful fetches show two changes of the reset time and the loop pushes
once. -/
theorem reset_change_after_settle_not_pushed :
    resetChanges (successes [.ok ⟨⟨5000, 4990, 1000⟩⟩, .ok ⟨⟨5000, 5000, 4600⟩⟩,
        .error "timeout", .ok ⟨⟨5000, 4999, 8200⟩⟩]) = 2
      ∧ pushes ((⟨"bot"⟩ : TokenHandler).Process (.ok ⟨⟨5000, 4990, 1000⟩⟩)
          [⟨1001, .ok ⟨⟨5000, 5000, 4600⟩⟩, none⟩, ⟨0, .error "timeout", none⟩,
            ⟨0, .ok ⟨⟨5000, 4999, 8200⟩⟩, none⟩]).1
        = [⟨"github_token_count", [("login", "bot")], [("value", 10)], 1000⟩]
      ∧ ((⟨"bot"⟩ : TokenHandler).Process (.ok ⟨⟨5000, 4990, 1000⟩⟩)
          [⟨1001, .ok ⟨⟨5000, 5000, 4600⟩⟩, none⟩, ⟨0, .error "timeout", none⟩,
            ⟨0, .ok ⟨⟨5000, 4999, 8200⟩⟩, none⟩]).2
        = some (.armed ⟨5000, 4999, 8200⟩) := by
  decide

/-- C4, amended: in every run of the loop, when the loop is at its top its
baseline is the most recent successful fetch, and a successful fetch made there
with a reset time different from the baseline's adds exactly one push to the
run, the baseline's measurement; when the loop is past a detected reset, the
first successful fetch is adopted as the baseline and adds no push, whatever
its reset time. -/
theorem reset_change_at_loop_top_pushes_once (t : TokenHandler) (baseline : Rate)
    (script : List Input) (inp : Input) (newRate : Rate) (hfetch : inp.fetch = .ok ⟨newRate⟩) :
    (∀ lastRate, (t.Process (.ok ⟨baseline⟩) script).2 = some (.armed lastRate) →
        lastRate = lastSuccess baseline script
          ∧ (newRate.Reset ≠ lastRate.Reset →
            pushes (t.Process (.ok ⟨baseline⟩) (script ++ [inp])).1
              = pushes (t.Process (.ok ⟨baseline⟩) script).1 ++ [t.measurement lastRate]))
      ∧ (∀ lastRate, (t.Process (.ok ⟨baseline⟩) script).2 = some (.reacquire lastRate) →
        pushes (t.Process (.ok ⟨baseline⟩) (script ++ [inp])).1
            = pushes (t.Process (.ok ⟨baseline⟩) script).1
          ∧ (t.Process (.ok ⟨baseline⟩) (script ++ [inp])).2 = some (.armed newRate)) := by
  obtain ⟨now, fetch, pushErr⟩ := inp
  simp only at hfetch
  subst hfetch
  simp only [process_ok, run_append, run_singleton, pushes_append, Option.some.injEq]
  constructor
  · intro lastRate hphase
    refine ⟨run_armed_lastSuccess t script (.armed baseline) baseline
      (fun l hl => by simpa using hl.symm) lastRate hphase, fun hreset => ?_⟩
    rw [hphase, step_armed_ok, (resetDetected_iff lastRate newRate).mpr (Or.inl hreset)]
    simp [pushes, pushes_append, pushes_pushLog]
  · intro lastRate hphase
    rw [hphase]
    simp [TokenHandler.step, TokenHandler.getCoreRate, pushes]

/-- The fetch with reset time 4600 at the top of the loop, the baseline having
reset time 1000, adds one push; the fetch with reset time 8200 that follows
the settle delay adds none. -/
theorem reset_change_at_loop_top_pushes_once_witness :
    pushes ((⟨"bot"⟩ : TokenHandler).Process (.ok ⟨⟨5000, 4990, 1000⟩⟩)
          ([⟨900, .ok ⟨⟨5000, 4985, 1000⟩⟩, none⟩]
            ++ [⟨1001, .ok ⟨⟨5000, 5000, 4600⟩⟩, none⟩])).1
        = pushes ((⟨"bot"⟩ : TokenHandler).Process (.ok ⟨⟨5000, 4990, 1000⟩⟩)
            [⟨900, .ok ⟨⟨5000, 4985, 1000⟩⟩, none⟩]).1
          ++ [(⟨"bot"⟩ : TokenHandler).measurement ⟨5000, 4985, 1000⟩]
      ∧ pushes ((⟨"bot"⟩ : TokenHandler).Process (.ok ⟨⟨5000, 4990, 1000⟩⟩)
          ([⟨1001, .ok ⟨⟨5000, 5000, 4600⟩⟩, none⟩]
            ++ [⟨0, .ok ⟨⟨5000, 4999, 8200⟩⟩, none⟩])).1
        = pushes ((⟨"bot"⟩ : TokenHandler).Process (.ok ⟨⟨5000, 4990, 1000⟩⟩)
            [⟨1001, .ok ⟨⟨5000, 5000, 4600⟩⟩, none⟩]).1 :=
  ⟨((reset_change_at_loop_top_pushes_once ⟨"bot"⟩ ⟨5000, 4990, 1000⟩
      [⟨900, .ok ⟨⟨5000, 4985, 1000⟩⟩, none⟩] ⟨1001, .ok ⟨⟨5000, 5000, 4600⟩⟩, none⟩
      ⟨5000, 5000, 4600⟩ rfl).1 ⟨5000, 4985, 1000⟩ (by decide)).2 (by decide),
    ((reset_change_at_loop_top_pushes_once ⟨"bot"⟩ ⟨5000, 4990, 1000⟩
      [⟨1001, .ok ⟨⟨5000, 5000, 4600⟩⟩, none⟩] ⟨0, .ok ⟨⟨5000, 4999, 8200⟩⟩, none⟩
      ⟨5000, 4999, 8200⟩ rfl).2 ⟨5000, 4990, 1000⟩ (by decide)).1⟩

/-! ## After a detected reset -/

/-- C7: after a reset is detected the loop sleeps 30 minutes, then fetches until
a fetch succeeds, sleeping 1 minute after each failed fetch; the next baseline
is the result of that first successful fetch, not the fetch that showed the
reset, and nothing is pushed while reacquiring, for any number of failed
fetches before the success. -/
theorem settle_then_reacquire (t : TokenHandler) (lastRate newRate fresh : Rate) (now : Time)
    (pushErr : Option String) (fails : List Input) (errs : List String) (inp : Input)
    (hdetect : newRate.Reset ≠ lastRate.Reset ∨ newRate.Remaining > lastRate.Remaining)
    (hfails : fails.map (fun f => f.fetch) = errs.map (fun e => .error e))
    (hfresh : inp.fetch = .ok ⟨fresh⟩) :
    t.run (.armed lastRate) (⟨now, .ok ⟨newRate⟩, pushErr⟩ :: (fails ++ [inp]))
        = (.sleep (halfPeriod lastRate now) :: .push (t.measurement lastRate)
            :: (pushLog pushErr ++ [.sleep (30 * Minute)]
              ++ errs.flatMap (fun e =>
                [.logError ("Failed to get CoreRate: " ++ e), .sleep Minute])),
            .armed fresh)
      ∧ t.run (.reacquire lastRate) (fails ++ [inp])
        = (errs.flatMap (fun e => [.logError ("Failed to get CoreRate: " ++ e), .sleep Minute]),
            .armed fresh)
      ∧ pushes (t.run (.reacquire lastRate) (fails ++ [inp])).1 = [] := by
  have hlast : t.run (.reacquire lastRate) [inp] = ([], .armed fresh) := by
    simp [TokenHandler.run, TokenHandler.step, TokenHandler.getCoreRate, hfresh]
  have hre : t.run (.reacquire lastRate) (fails ++ [inp])
      = (errs.flatMap (fun e => [.logError ("Failed to get CoreRate: " ++ e), .sleep Minute]),
          .armed fresh) := by
    rw [run_reacquire_failures t lastRate fails errs [inp] hfails, hlast]
    simp
  refine ⟨?_, hre, ?_⟩
  · have hstep := step_armed_ok t lastRate newRate now pushErr
    rw [(resetDetected_iff lastRate newRate).mpr hdetect] at hstep
    simp only [if_true] at hstep
    simp [TokenHandler.run, hstep, hre]
  · rw [hre]
    clear hre hfails
    induction errs with
    | nil => rfl
    | cons e es ih => simpa [List.flatMap_cons, pushes] using ih

/-- Two failed fetches after the settle delay, then a success. -/
theorem settle_then_reacquire_witness :
    (⟨"bot"⟩ : TokenHandler).run (.armed ⟨5000, 4985, 1000⟩)
        (⟨1001, .ok ⟨⟨5000, 5000, 4600⟩⟩, some "write failed"⟩
          :: ([⟨0, .error "timeout", none⟩, ⟨0, .error "reset by peer", none⟩]
            ++ [⟨0, .ok ⟨⟨5000, 4999, 4600⟩⟩, none⟩]))
      = ([.sleep 0, .push ⟨"github_token_count", [("login", "bot")], [("value", 15)], 1000⟩,
          .logError "Failed to push count:write failed", .sleep 1800000000000,
          .logError "Failed to get CoreRate: timeout", .sleep 60000000000,
          .logError "Failed to get CoreRate: reset by peer", .sleep 60000000000],
          .armed ⟨5000, 4999, 4600⟩) :=
  (settle_then_reacquire ⟨"bot"⟩ ⟨5000, 4985, 1000⟩ ⟨5000, 5000, 4600⟩ ⟨5000, 4999, 4600⟩ 1001
    (some "write failed") [⟨0, .error "timeout", none⟩, ⟨0, .error "reset by peer", none⟩]
    ["timeout", "reset by peer"] ⟨0, .ok ⟨⟨5000, 4999, 4600⟩⟩, none⟩ (Or.inl (by decide)) rfl
    rfl).1.trans (by decide)

/-- C10: when a reset is detected and the push fails, the failure is logged and
the push is not made again; the loop sleeps the same settle delay, goes to the
same reacquiring fetches and, over the same clock readings and fetch results,
reaches the same place with the same baseline, having made the same pushes and
the same sleeps as when the push succeeds. -/
theorem failed_push_changes_nothing_else (t : TokenHandler) (lastRate newRate : Rate)
    (now : Time) (err : String) (rest rest' : List Input)
    (hdetect : newRate.Reset ≠ lastRate.Reset ∨ newRate.Remaining > lastRate.Remaining)
    (hsame : rest.map (fun i => (i.now, i.fetch)) = rest'.map (fun i => (i.now, i.fetch))) :
    t.step (.armed lastRate) ⟨now, .ok ⟨newRate⟩, some err⟩
        = ([.sleep (halfPeriod lastRate now), .push (t.measurement lastRate),
            .logError ("Failed to push count:" ++ err), .sleep (30 * Minute)],
            .reacquire lastRate)
      ∧ t.step (.armed lastRate) ⟨now, .ok ⟨newRate⟩, none⟩
        = ([.sleep (halfPeriod lastRate now), .push (t.measurement lastRate),
            .sleep (30 * Minute)], .reacquire lastRate)
      ∧ (t.run (.armed lastRate) (⟨now, .ok ⟨newRate⟩, some err⟩ :: rest)).2
        = (t.run (.armed lastRate) (⟨now, .ok ⟨newRate⟩, none⟩ :: rest')).2
      ∧ pushes (t.run (.armed lastRate) (⟨now, .ok ⟨newRate⟩, some err⟩ :: rest)).1
        = pushes (t.run (.armed lastRate) (⟨now, .ok ⟨newRate⟩, none⟩ :: rest')).1
      ∧ sleeps (t.run (.armed lastRate) (⟨now, .ok ⟨newRate⟩, some err⟩ :: rest)).1
        = sleeps (t.run (.armed lastRate) (⟨now, .ok ⟨newRate⟩, none⟩ :: rest')).1 := by
  have hd := (resetDetected_iff lastRate newRate).mpr hdetect
  refine ⟨by simp [step_armed_ok, hd, pushLog], by simp [step_armed_ok, hd, pushLog], ?_⟩
  exact run_same_now_fetch t (.armed lastRate) (⟨now, .ok ⟨newRate⟩, some err⟩ :: rest)
    (⟨now, .ok ⟨newRate⟩, none⟩ :: rest') (by simpa using hsame)

/-- A failed push followed by one failed and one successful reacquiring fetch,
against the same run with every push succeeding. -/
theorem failed_push_changes_nothing_else_witness :
    ((⟨"bot"⟩ : TokenHandler).run (.armed ⟨5000, 4985, 1000⟩)
        (⟨1001, .ok ⟨⟨5000, 5000, 4600⟩⟩, some "write failed"⟩
          :: [⟨0, .error "timeout", some "x"⟩, ⟨0, .ok ⟨⟨5000, 4999, 4600⟩⟩, none⟩])).2
      = ((⟨"bot"⟩ : TokenHandler).run (.armed ⟨5000, 4985, 1000⟩)
        (⟨1001, .ok ⟨⟨5000, 5000, 4600⟩⟩, none⟩
          :: [⟨0, .error "timeout", none⟩, ⟨0, .ok ⟨⟨5000, 4999, 4600⟩⟩, none⟩])).2 :=
  (failed_push_changes_nothing_else ⟨"bot"⟩ ⟨5000, 4985, 1000⟩ ⟨5000, 5000, 4600⟩ 1001
    "write failed" [⟨0, .error "timeout", some "x"⟩, ⟨0, .ok ⟨⟨5000, 4999, 4600⟩⟩, none⟩]
    [⟨0, .error "timeout", none⟩, ⟨0, .ok ⟨⟨5000, 4999, 4600⟩⟩, none⟩] (Or.inl (by decide))
    rfl).2.2.1

/-! ## The sleep of an iteration -/

/-- C9, as the claim states it, fails: with the baseline's reset time 1000 and
the clock at 1010, the duration the iteration computes and passes to
`time.Sleep` is -5, a negative duration. -/
theorem sleep_request_negative_past_reset :
    halfPeriod ⟨5000, 4990, 1000⟩ 1010 = -5
      ∧ ((⟨"bot"⟩ : TokenHandler).step (.armed ⟨5000, 4990, 1000⟩)
          ⟨1010, .error "timeout", none⟩).1
        = [.sleep (-5), .logError "Failed to get CoreRate: timeout"]
      ∧ ¬ (0 ≤ halfPeriod ⟨5000, 4990, 1000⟩ 1010) := by
  decide

/-- C9, amended: every iteration first calls `time.Sleep` with the baseline's
reset time minus now, halved toward zero (the difference as `time.Time.Sub`
gives it, which is the exact difference when it fits a duration); after a
failed fetch the baseline is unchanged and the duration computed at a later
instant is never longer than the one computed at an earlier instant; the
duration is non-negative exactly when now is at most one nanosecond past the
reset time and negative from then on, where `time.Sleep` returns at once, so
the time slept is never negative and never grows either. -/
theorem sleep_request_halves_and_shrinks (t : TokenHandler) (lastRate : Rate)
    (now later : Time) (err err' : String) (p p' : Option String) (hlater : now ≤ later) :
    (∀ inp : Input,
        (sleeps (t.step (.armed lastRate) inp).1).head? = some (halfPeriod lastRate inp.now))
      ∧ (minDuration ≤ lastRate.Reset - now ∧ lastRate.Reset - now ≤ maxDuration →
        halfPeriod lastRate now = (lastRate.Reset - now).tdiv 2)
      ∧ sleeps (t.run (.armed lastRate) [⟨now, .error err, p⟩, ⟨later, .error err', p'⟩]).1
        = [halfPeriod lastRate now, halfPeriod lastRate later]
      ∧ halfPeriod lastRate later ≤ halfPeriod lastRate now
      ∧ (0 ≤ halfPeriod lastRate now ↔ now ≤ lastRate.Reset + 1)
      ∧ 0 ≤ slept (halfPeriod lastRate now)
      ∧ slept (halfPeriod lastRate later) ≤ slept (halfPeriod lastRate now) := by
  refine ⟨step_armed_first_sleep t lastRate, fun hfit => halfPeriod_of_fits lastRate now hfit.1
    hfit.2, ?_, halfPeriod_antitone lastRate now later hlater,
    halfPeriod_nonneg_iff lastRate now, le_max_right _ _,
    max_le_max (halfPeriod_antitone lastRate now later hlater) le_rfl⟩
  simp [TokenHandler.run, TokenHandler.step, TokenHandler.getCoreRate, sleeps]

/-- Two failed fetches against the baseline with reset time 1000, the clock at
400 and then at 900: the sleeps asked for are 300 and 50. -/
theorem sleep_request_halves_and_shrinks_witness :
    sleeps ((⟨"bot"⟩ : TokenHandler).run (.armed ⟨5000, 4990, 1000⟩)
        [⟨400, .error "timeout", none⟩, ⟨900, .error "timeout", none⟩]).1 = [300, 50]
      ∧ halfPeriod ⟨5000, 4990, 1000⟩ 900 ≤ halfPeriod ⟨5000, 4990, 1000⟩ 400 :=
  ⟨(sleep_request_halves_and_shrinks ⟨"bot"⟩ ⟨5000, 4990, 1000⟩ 400 900 "timeout" "timeout"
      none none (by decide)).2.2.1.trans (by decide),
    (sleep_request_halves_and_shrinks ⟨"bot"⟩ ⟨5000, 4990, 1000⟩ 400 900 "timeout" "timeout"
      none none (by decide)).2.2.2.1⟩

/-! ## The collector -/

/-- C5, as the claim states it, fails: with two handlers, the second of which
fails, `Collect` has already sent the gauge of the first: the scrape gets a
partial result. -/
theorem collect_sends_gauges_before_failure :
    (⟨"b"⟩ : TokenHandler).ProcessNow (.error "timeout")
        = .error "failed to get CoreRate: timeout"
      ∧ ((NewCollector [⟨"a"⟩, ⟨"b"⟩]).Collect
          (fun i => if i = 0 then .ok ⟨⟨5000, 4000, 1000⟩⟩ else .error "timeout")).sent
        = [{ fqName := "github_token_count"
             help := "Number of counted API calls against the github API within a reset window"
             variableLabels := ["login"]
             isGauge := true
             value := 1000
             labelValues := ["a"] }] :=
  ⟨rfl, by decide⟩

/-- C5, amended: when the first handler whose `ProcessNow` fails is at position
k, `Collect` logs the failure and returns; it has sent the gauges of the k
handlers before that position, in order, and sends nothing for the handler at
position k and those after it. -/
theorem collect_stops_at_first_failure (c : Collector) (api : Nat → Reply) (rates : Nat → Rate)
    (before : List TokenHandler) (handler : TokenHandler) (after : List TokenHandler)
    (e : String) (htokens : c.tokens = before ++ handler :: after)
    (hok : ∀ (j : Nat) (h : TokenHandler), before[j]? = some h → h.ProcessNow (api j) = .ok (rates j))
    (hfail : handler.ProcessNow (api before.length) = .error e) :
    (c.Collect api).sent
        = before.enum.map (fun p =>
            ({ fqName := c.tokenCounter.fqName
               help := c.tokenCounter.help
               variableLabels := c.tokenCounter.variableLabels
               isGauge := true
               value := intSub (rates p.1).Limit (rates p.1).Remaining
               labelValues := [p.2.login] } : Metric))
      ∧ (c.Collect api).sent.length = before.length
      ∧ (c.Collect api).logged
        = [{ message := "Failed to fetch rate limits for login '" ++ handler.login ++ "'"
             error := e
             login := handler.login }] := by
  obtain ⟨err, herr, he⟩ := processNow_eq_error handler _ e hfail
  have hok' : ∀ j, j < before.length → api (0 + j) = .ok ⟨rates (0 + j)⟩ := by
    intro j hj
    rw [Nat.zero_add]
    exact processNow_eq_ok (before.get ⟨j, hj⟩) _ _
      (hok j _ (List.getElem?_eq_getElem hj))
  have hrun := collectFrom_first_failure c api rates before handler after err 0 hok'
    (by simpa using herr)
  have hsent : (c.Collect api).sent
      = before.enum.map (fun p => c.gauge p.2 (rates p.1)) := by
    simp [Collector.Collect, htokens, hrun, List.enum]
  refine ⟨hsent, ?_, ?_⟩
  · simp [hsent]
  · simp [Collector.Collect, htokens, hrun, he]

/-- Three handlers, the one in the middle failing. -/
theorem collect_stops_at_first_failure_witness :
    ((NewCollector [⟨"a"⟩, ⟨"b"⟩, ⟨"c"⟩]).Collect
        (fun i => if i = 1 then .error "timeout" else .ok ⟨⟨5000, 4000, 1000⟩⟩)).sent.length
      = 1 :=
  (collect_stops_at_first_failure (NewCollector [⟨"a"⟩, ⟨"b"⟩, ⟨"c"⟩])
    (fun i => if i = 1 then .error "timeout" else .ok ⟨⟨5000, 4000, 1000⟩⟩)
    (fun _ => ⟨5000, 4000, 1000⟩) [⟨"a"⟩] ⟨"b"⟩ [⟨"c"⟩] "failed to get CoreRate: timeout" rfl
    (by
      intro j h hj
      cases j with
      | zero => rfl
      | succ n => simp at hj)
    rfl).2.1

/-- C8: when the `ProcessNow` calls of all handlers succeed, `Collect` sends
exactly one gauge per handler, in the order of the handler list, each with the
value limit minus remaining of that handler's freshly fetched rate and the
handler's login as its label, and logs nothing. -/
theorem collect_one_gauge_per_handler (c : Collector) (api : Nat → Reply) (rates : Nat → Rate)
    (hok : ∀ (j : Nat) (h : TokenHandler), c.tokens[j]? = some h → h.ProcessNow (api j) = .ok (rates j)) :
    (c.Collect api).sent
        = c.tokens.enum.map (fun p =>
            ({ fqName := c.tokenCounter.fqName
               help := c.tokenCounter.help
               variableLabels := c.tokenCounter.variableLabels
               isGauge := true
               value := intSub (rates p.1).Limit (rates p.1).Remaining
               labelValues := [p.2.login] } : Metric))
      ∧ (c.Collect api).sent.length = c.tokens.length
      ∧ (c.Collect api).logged = []
      ∧ (∀ j, -(2 ^ 63) ≤ (rates j).Limit - (rates j).Remaining
          ∧ (rates j).Limit - (rates j).Remaining < 2 ^ 63 →
        intSub (rates j).Limit (rates j).Remaining = (rates j).Limit - (rates j).Remaining) := by
  have hok' : ∀ j, j < c.tokens.length → api (0 + j) = .ok ⟨rates (0 + j)⟩ := by
    intro j hj
    rw [Nat.zero_add]
    exact processNow_eq_ok (c.tokens.get ⟨j, hj⟩) _ _
      (hok j _ (List.getElem?_eq_getElem hj))
  have hrun := collectFrom_all_ok c api rates c.tokens 0 hok'
  have hsent : (c.Collect api).sent
      = c.tokens.enum.map (fun p => c.gauge p.2 (rates p.1)) := by
    simp [Collector.Collect, hrun, List.enum]
  refine ⟨hsent, ?_, ?_, fun j hfit => intSub_of_fits _ _ hfit.1 hfit.2⟩
  · simp [hsent]
  · simp [Collector.Collect, hrun]

/-- Two handlers with the rates (5000, 4000) and (5000, 4990). -/
theorem collect_one_gauge_per_handler_witness :
    ((NewCollector [⟨"a"⟩, ⟨"b"⟩]).Collect
        (fun i => if i = 0 then .ok ⟨⟨5000, 4000, 1000⟩⟩ else .ok ⟨⟨5000, 4990, 1000⟩⟩)).sent
      = [{ fqName := "github_token_count"
           help := "Number of counted API calls against the github API within a reset window"
           variableLabels := ["login"]
           isGauge := true
           value := 1000
           labelValues := ["a"] },
         { fqName := "github_token_count"
           help := "Number of counted API calls against the github API within a reset window"
           variableLabels := ["login"]
           isGauge := true
           value := 10
           labelValues := ["b"] }] :=
  (collect_one_gauge_per_handler (NewCollector [⟨"a"⟩, ⟨"b"⟩])
    (fun i => if i = 0 then .ok ⟨⟨5000, 4000, 1000⟩⟩ else .ok ⟨⟨5000, 4990, 1000⟩⟩)
    (fun i => if i = 0 then ⟨5000, 4000, 1000⟩ else ⟨5000, 4990, 1000⟩)
    (by
      intro j h hj
      cases j with
      | zero => rfl
      | succ n =>
        cases n with
        | zero => rfl
        | succ m => simp [NewCollector] at hj)).1.trans (by decide)

end TokenCounter
